import Mathlib

/-!
Shallow embedding of the WebSocket load-testing tool
(`loadtest.go` and its helper files) and proofs about it.

Conventions of the embedding:
* Go `time.Duration` values (int64 nanoseconds) are modelled as `Int`.
* Go `int64` counters are modelled as `Int` (the run-local counters are
  incremented once per recorded outcome and never approach 2^63).
* Go `error` values are modelled as `Option String` (`none` = nil error,
  `some msg` = an error whose `Error()` is `msg`).
* Go `float64` is modelled by `GoFloat` below: `Rat` for finite values plus
  the IEEE special values `nan`/`posInf`/`negInf`; rounding of finite values
  is immaterial to the properties proved here (zero-vs-NaN distinctions).
* `sort.Slice(xs, less)` with an ascending comparator is modelled by
  `List.insertionSort (· ≤ ·)`: any ascending sort of a list over a linear
  order produces the unique sorted permutation.
-/

namespace WsLoad

/-! ### Strings: `strings.Contains` and `strings.ToLower` -/

/-- Does `needle` occur at the start of `hay` (character lists)? -/
def prefChars : List Char → List Char → Bool
  | [], _ => true
  | _ :: _, [] => false
  | a :: as, b :: bs => a == b && prefChars as bs

/-- Substring search over character lists: does `needle` occur
contiguously anywhere in `hay`? -/
def infChars (needle : List Char) : List Char → Bool
  | [] => needle.isEmpty
  | b :: bs => prefChars needle (b :: bs) || infChars needle bs

/-- Model of Go `strings.Contains hay needle`. -/
def strContains (hay needle : String) : Bool :=
  infChars needle.toList hay.toList

/-- Model of Go `strings.ToLower` (per-character lowering; the error
messages matched by the classifier are ASCII). -/
def strToLower (s : String) : String :=
  String.mk (s.toList.map Char.toLower)

/-! ### Error categories (`loadtest.go` constants) -/

def ErrorCategoryTimeout : String := "timeout"
def ErrorCategoryConnectionRefused : String := "connection_refused"
def ErrorCategoryUnexpectedResponse : String := "unexpected_response"
def ErrorCategoryInvalidData : String := "invalid_data"
def ErrorCategoryAuthFailure : String := "authentication_failure"
def ErrorCategoryNetworkError : String := "network_error"
def ErrorCategoryProtocolError : String := "protocol_error"
def ErrorCategoryResourceExhaustion : String := "resource_exhaustion"
def ErrorCategoryUnknown : String := "unknown"

/-- The nine categories, in the classifier's priority order with the
fallback last. -/
def allCategories : List String :=
  [ErrorCategoryTimeout, ErrorCategoryConnectionRefused,
   ErrorCategoryNetworkError, ErrorCategoryAuthFailure,
   ErrorCategoryProtocolError, ErrorCategoryResourceExhaustion,
   ErrorCategoryUnexpectedResponse, ErrorCategoryInvalidData,
   ErrorCategoryUnknown]

/-! ### `categorizeError` (`loadtest.go` lines 98-170)

Each `matchX` predicate below transcribes, clause for clause, the
corresponding `strings.Contains` condition group of the source; the
classifier chains them in the source's order. -/

/-- Timeout condition group (`loadtest.go` lines 106-108). -/
def matchTimeout (m : String) : Bool :=
  strContains m "timeout" || strContains m "deadline exceeded" ||
    strContains m "handshake timeout"

/-- Connection-refused condition group (lines 113-116). -/
def matchConnectionRefused (m : String) : Bool :=
  strContains m "connection refused" ||
    strContains m "connect: connection refused" ||
    strContains m "connectex: no connection could be made" ||
    strContains m "no connection could be made because the target machine actively refused"

/-- Network-error condition group (lines 121-124). -/
def matchNetworkError (m : String) : Bool :=
  strContains m "no such host" || strContains m "network unreachable" ||
    strContains m "no route to host" || strContains m "dns"

/-- Authentication-failure condition group (lines 129-133). -/
def matchAuthFailure (m : String) : Bool :=
  strContains m "unauthorized" || strContains m "forbidden" ||
    strContains m "authentication" || strContains m "401" ||
    strContains m "403"

/-- Protocol-error condition group (lines 138-143). -/
def matchProtocolError (m : String) : Bool :=
  strContains m "bad handshake" || strContains m "handshake error" ||
    strContains m "handshake" || strContains m "websocket" ||
    strContains m "upgrade" || strContains m "protocol"

/-- Resource-exhaustion condition group (lines 148-151). -/
def matchResourceExhaustion (m : String) : Bool :=
  strContains m "too many" ||
    strContains m "resource temporarily unavailable" ||
    strContains m "out of memory" ||
    strContains m "no buffer space available"

/-- Unexpected-response condition group (lines 156-158). -/
def matchUnexpectedResponse (m : String) : Bool :=
  strContains m "unexpected" || strContains m "invalid response" ||
    strContains m "bad response"

/-- Invalid-data condition group (lines 163-165). -/
def matchInvalidData (m : String) : Bool :=
  strContains m "invalid" || strContains m "malformed" ||
    strContains m "parse"

/-- Embedding of `categorizeError`: `none` models a nil `error`,
`some msg` an error whose message is `msg`.  The source lowercases the
message once and then tests the condition groups in this order, returning
at the first hit and `unknown` when none hits. -/
def categorizeError : Option String → String
  | none => ErrorCategoryUnknown
  | some msg =>
    let errMsg := strToLower msg
    if matchTimeout errMsg then ErrorCategoryTimeout
    else if matchConnectionRefused errMsg then ErrorCategoryConnectionRefused
    else if matchNetworkError errMsg then ErrorCategoryNetworkError
    else if matchAuthFailure errMsg then ErrorCategoryAuthFailure
    else if matchProtocolError errMsg then ErrorCategoryProtocolError
    else if matchResourceExhaustion errMsg then ErrorCategoryResourceExhaustion
    else if matchUnexpectedResponse errMsg then ErrorCategoryUnexpectedResponse
    else if matchInvalidData errMsg then ErrorCategoryInvalidData
    else ErrorCategoryUnknown

/-- The spec's fixed priority order of classification rules
(fallback `unknown` handled separately). -/
def classifierRules : List ((String → Bool) × String) :=
  [(matchTimeout, ErrorCategoryTimeout),
   (matchConnectionRefused, ErrorCategoryConnectionRefused),
   (matchNetworkError, ErrorCategoryNetworkError),
   (matchAuthFailure, ErrorCategoryAuthFailure),
   (matchProtocolError, ErrorCategoryProtocolError),
   (matchResourceExhaustion, ErrorCategoryResourceExhaustion),
   (matchUnexpectedResponse, ErrorCategoryUnexpectedResponse),
   (matchInvalidData, ErrorCategoryInvalidData)]

/-- Modelled from the spec: classification as first-match-wins over the
rule list on the lowercased message, with `unknown` as the fallback. -/
def specClassify (msg : String) : String :=
  let errMsg := strToLower msg
  match classifierRules.find? (fun rule => rule.1 errMsg) with
  | some rule => rule.2
  | none => ErrorCategoryUnknown

theorem categorizeError_eq_specClassify (msg : String) :
    categorizeError (some msg) = specClassify msg := by
  simp only [categorizeError, specClassify, classifierRules]
  cases h1 : matchTimeout (strToLower msg) <;>
    cases h2 : matchConnectionRefused (strToLower msg) <;>
    cases h3 : matchNetworkError (strToLower msg) <;>
    cases h4 : matchAuthFailure (strToLower msg) <;>
    cases h5 : matchProtocolError (strToLower msg) <;>
    cases h6 : matchResourceExhaustion (strToLower msg) <;>
    cases h7 : matchUnexpectedResponse (strToLower msg) <;>
    cases h8 : matchInvalidData (strToLower msg) <;>
    simp [List.find?, h1, h2, h3, h4, h5, h6, h7, h8]

theorem categorizeError_mem_allCategories (e : Option String) :
    categorizeError e ∈ allCategories := by
  cases e with
  | none => simp [categorizeError, allCategories]
  | some msg =>
    cases h1 : matchTimeout (strToLower msg) <;>
      cases h2 : matchConnectionRefused (strToLower msg) <;>
      cases h3 : matchNetworkError (strToLower msg) <;>
      cases h4 : matchAuthFailure (strToLower msg) <;>
      cases h5 : matchProtocolError (strToLower msg) <;>
      cases h6 : matchResourceExhaustion (strToLower msg) <;>
      cases h7 : matchUnexpectedResponse (strToLower msg) <;>
      cases h8 : matchInvalidData (strToLower msg) <;>
      simp [categorizeError, allCategories, h1, h2, h3, h4, h5, h6, h7, h8]

/-! ### The aggregate (`TestResults`, `loadtest.go` lines 184-199) -/

/-- Structure `ErrorCategoryInfo` (`loadtest.go` lines 30-34). -/
structure ErrorCategoryInfo where
  Count : Nat
  Description : String
  Examples : List String
deriving DecidableEq

/-- Descriptions used by `initializeErrorCategories`
(`loadtest.go` lines 37-95). -/
def categoryDescription (cat : String) : String :=
  if cat = ErrorCategoryTimeout then
    "Requests that timed out (handshake, read, write timeouts)"
  else if cat = ErrorCategoryConnectionRefused then
    "Connection attempts rejected by the server"
  else if cat = ErrorCategoryUnexpectedResponse then
    "Unexpected HTTP responses or WebSocket upgrade failures"
  else if cat = ErrorCategoryInvalidData then
    "Invalid or malformed data received"
  else if cat = ErrorCategoryAuthFailure then
    "Authentication or authorization failures"
  else if cat = ErrorCategoryNetworkError then
    "Network-related errors (DNS, routing, etc.)"
  else if cat = ErrorCategoryProtocolError then
    "WebSocket protocol violations or errors"
  else if cat = ErrorCategoryResourceExhaustion then
    "Resource exhaustion (too many connections, memory, etc.)"
  else
    "Uncategorized or unknown errors"

/-- Embedding of `initializeErrorCategories`: the map holds exactly the
nine category keys, each starting at count 0 with no examples.  The Go
map is modelled as a function to `Option ErrorCategoryInfo` (`none` =
key absent). -/
def initializeErrorCategories : String → Option ErrorCategoryInfo :=
  fun cat =>
    if cat ∈ allCategories then
      some ⟨0, categoryDescription cat, []⟩
    else
      none

/-- Embedding of the mutable fields of `TestResults` that the recording
operations and the report touch.  Counters and byte counts are `int64`
(`Int`), latencies `time.Duration` (`Int` nanoseconds); `StartTime` and
`EndTime` are `Option Int` (`none` = zero `time.Time`). -/
structure TestResults where
  TotalRequests : Int
  SuccessfulReqs : Int
  FailedReqs : Int
  TotalLatency : Int
  Latencies : List Int
  PeakResponseTime : Int
  StartTime : Option Int
  EndTime : Option Int
  BytesSent : Int
  BytesReceived : Int
  ErrorCounts : String → Nat
  ErrorCategories : String → Option ErrorCategoryInfo

/-- The aggregate as built by `NewLoadTest` (`loadtest.go` lines 245-250):
all counters zero, empty sample list, empty error-count map, the nine
initialized categories. -/
def initResults : TestResults where
  TotalRequests := 0
  SuccessfulReqs := 0
  FailedReqs := 0
  TotalLatency := 0
  Latencies := []
  PeakResponseTime := 0
  StartTime := none
  EndTime := none
  BytesSent := 0
  BytesReceived := 0
  ErrorCounts := fun _ => 0
  ErrorCategories := initializeErrorCategories

/-- One recording operation hitting the aggregate under its lock:
either the success critical section of `sendMessage` (a latency sample
and the byte count of the sent message) or a `recordError` call (the
error-signature tag and the error's message). -/
inductive RecordOp
  | success (latency : Int) (msgLen : Int)
  | failure (errorType : String) (errMsg : String)

/-- The success critical section of `sendMessage`
(`loadtest.go` lines 372-382). -/
def recordSuccess (r : TestResults) (latency msgLen : Int) : TestResults :=
  { r with
    TotalRequests := r.TotalRequests + 1
    SuccessfulReqs := r.SuccessfulReqs + 1
    TotalLatency := r.TotalLatency + latency
    Latencies := r.Latencies ++ [latency]
    PeakResponseTime :=
      if latency > r.PeakResponseTime then latency else r.PeakResponseTime
    BytesSent := r.BytesSent + msgLen }

/-- Embedding of `recordError` (`loadtest.go` lines 389-410): increments
total/failed and the signature count, classifies the error, and — when
the category key exists — bumps its count and appends the literal message
as an example only while fewer than 3 examples are stored. -/
def recordError (r : TestResults) (errorType errMsg : String) : TestResults :=
  let category := categorizeError (some errMsg)
  { r with
    TotalRequests := r.TotalRequests + 1
    FailedReqs := r.FailedReqs + 1
    ErrorCounts := fun k =>
      if k = errorType then r.ErrorCounts k + 1 else r.ErrorCounts k
    ErrorCategories := fun k =>
      if k = category then
        match r.ErrorCategories category with
        | some info =>
            some { info with
              Count := info.Count + 1
              Examples :=
                if info.Examples.length < 3 then info.Examples ++ [errMsg]
                else info.Examples }
        | none => none
      else r.ErrorCategories k }

/-- Apply one recording operation. -/
def applyRecord (r : TestResults) : RecordOp → TestResults
  | RecordOp.success latency msgLen => recordSuccess r latency msgLen
  | RecordOp.failure errorType errMsg => recordError r errorType errMsg

/-- Apply a sequence of recording operations in order. -/
def applyRecords (r : TestResults) (ops : List RecordOp) : TestResults :=
  ops.foldl applyRecord r

/-! ### Percentile computations -/

/-- Embedding of `calculatePercentile` (helper file, lines 77-94):
empty input yields 0; otherwise sort ascending, take index
`(percentile * n) / 100`, clamped to `n - 1` when out of range.
The Go parameter is an `int`; the callers and the spec use values in
`[0, 100]`, modelled as `Nat`. -/
def calculatePercentile (latencies : List Int) (percentile : Nat) : Int :=
  if latencies.length = 0 then 0
  else
    let sorted := latencies.insertionSort (· ≤ ·)
    let n := latencies.length
    let index := (percentile * n) / 100
    let index := if index ≥ n then n - 1 else index
    sorted.getD index 0

/-- The P50 selection of `printResults` (`loadtest.go` lines 470-474):
`Latencies[len(Latencies)/2]` of the sample list in recorded order —
no sorting. -/
def printResultsP50 (latencies : List Int) : Int :=
  if latencies.length > 0 then latencies.getD (latencies.length / 2) 0
  else 0

/-- The P50 selection of `addEntry` (history file, lines 119-127):
a copy of the sample list is sorted ascending, then index
`len/2` is taken. -/
def addEntryP50 (latencies : List Int) : Int :=
  if latencies.length > 0 then
    (latencies.insertionSort (· ≤ ·)).getD (latencies.length / 2) 0
  else 0

/-- Modelled from the spec: the index-selection rule — element at index
`floor(50 * n / 100)` of the ascending-sorted sample list, clamped to
`n - 1`. -/
def specP50Rule (latencies : List Int) : Int :=
  let n := latencies.length
  (latencies.insertionSort (· ≤ ·)).getD (min ((50 * n) / 100) (n - 1)) 0

/-! ### Success rate (`printResults` line 493, `addEntry` line 131) -/

/-- IEEE-754 `float64` results relevant here: finite values are carried
exactly as rationals (rounding is immaterial to the zero-vs-NaN
distinction), plus the three special values. -/
inductive GoFloat
  | nan
  | posInf
  | negInf
  | val (q : Rat)
deriving DecidableEq

/-- The computation `float64(successfulReqs) / float64(totalRequests) * 100`
as written (unguarded) in `printResults` line 493: IEEE division of exact
integer operands — `0/0` is NaN, `±x/0` is `±Inf` for `x ≠ 0` — followed
by multiplication by 100 (which fixes NaN and the infinities). -/
def printResultsSuccessRate (successfulReqs totalRequests : Int) : GoFloat :=
  if totalRequests = 0 then
    if successfulReqs = 0 then GoFloat.nan
    else if successfulReqs > 0 then GoFloat.posInf
    else GoFloat.negInf
  else GoFloat.val ((successfulReqs : Rat) / (totalRequests : Rat) * 100)

/-- The identical computation
`float64(successfulReqs) / float64(totalRequests) * 100` at
`addEntry` line 131 (history file). -/
def addEntrySuccessRate (successfulReqs totalRequests : Int) : GoFloat :=
  printResultsSuccessRate successfulReqs totalRequests

/-! ### `Run` (`loadtest.go` lines 258-321) -/

/-- Structure `TestOptions` (CLI file): the fields `Run` and the workers read. -/
structure TestOptions where
  URL : String
  Duration : String
  Connections : Nat
  Message : String
  Loop : Nat

/-- Embedding of `Run`.  `parseDur` abstracts `time.ParseDuration`
(`none` = parse error).  The concurrent phase — sampler plus workers
recording outcomes until duration expiry and drain — is abstracted as the
list `events` of recording operations the workers perform, applied to the
aggregate between the start- and end-time stamps; `Run` itself returns
`none` (nil error) on that path no matter what the workers recorded.
On a parse failure it returns the error immediately with the aggregate
untouched (no start time recorded, no worker launched). -/
def runLoadTest (parseDur : String → Option Int) (opts : TestOptions)
    (startTime endTime : Int) (events : List RecordOp) (r : TestResults) :
    Option String × TestResults :=
  match parseDur opts.Duration with
  | none => (some "invalid duration format", r)
  | some _ =>
      let started := { r with StartTime := some startTime }
      let drained := applyRecords started events
      (none, { drained with EndTime := some endTime })

/-! ### `runConnection` (`loadtest.go` lines 324-357) -/

/-- Observable actions of one worker's `runConnection`. -/
inductive ConnAction
  | recordCreateFail (errMsg : String)
  | send (iteration : Nat)
  | close1000
deriving DecidableEq

/-- The send loop of `runConnection` (lines 346-356), producing the
worker's action trace from iteration `i` with `rem` iterations left:
at each iteration boundary the `select` observes the cancellation signal
(`cancelled`); if set the worker returns at once, otherwise it performs
the send for this iteration; only after the loop has run all iterations
is `WriteClose(1000, ...)` reached. -/
def connLoop (cancelled : Nat → Bool) : Nat → Nat → List ConnAction
  | _, 0 => [ConnAction.close1000]
  | i, rem + 1 =>
      if cancelled i then []
      else ConnAction.send i :: connLoop cancelled (i + 1) rem

/-- Embedding of `runConnection` for one worker: when client creation
fails (`openError = some e`) the worker records the failure and returns;
otherwise it runs the send loop over `loopCount` iterations, observing
the cancellation signal at every iteration boundary. -/
def runConnection (openError : Option String) (loopCount : Nat)
    (cancelled : Nat → Bool) : List ConnAction :=
  match openError with
  | some e => [ConnAction.recordCreateFail e]
  | none => connLoop cancelled 0 loopCount

/-! ## Theorems -/

/-- C10: `categorizeError` applied to a nil error returns the category
`unknown`: the classifier is total on the nil input as well. -/
theorem categorizeError_nil_unknown :
    categorizeError none = ErrorCategoryUnknown := rfl

/-- C5: `categorizeError` is a pure, total function of the error message:
every error maps into the nine categories; on a non-nil error it agrees
with first-match-wins classification over the rules in the fixed priority
order timeout → connection-refused → network-error → auth-failure →
protocol-error → resource-exhaustion → unexpected-response → invalid-data
→ unknown; and any message containing "timeout" (case-insensitively) —
in particular one also containing "invalid" — classifies as timeout. -/
theorem categorizeError_total_priority :
    (∀ e : Option String, categorizeError e ∈ allCategories) ∧
    (∀ msg : String, categorizeError (some msg) = specClassify msg) ∧
    (∀ msg : String, strContains (strToLower msg) "timeout" = true →
      categorizeError (some msg) = ErrorCategoryTimeout) :=
  ⟨categorizeError_mem_allCategories, categorizeError_eq_specClassify,
   fun msg h => by simp [categorizeError, matchTimeout, h]⟩

theorem categorizeError_total_priority_witness :
    strContains (strToLower "connection timeout after invalid frame") "timeout" = true ∧
    categorizeError (some "connection timeout after invalid frame") =
      ErrorCategoryTimeout :=
  ⟨by decide,
   categorizeError_total_priority.2.2 "connection timeout after invalid frame"
     (by decide)⟩

/-- C1 (code bug): in the zero-attempt aggregate state the success-rate
computation `float64(successfulReqs)/float64(totalRequests)*100` of
`printResults` (line 493) and `addEntry` (line 131) is NOT guarded
against division by zero: it evaluates to IEEE NaN, not to 0. -/
theorem successRate_zero_total_is_nan :
    printResultsSuccessRate initResults.SuccessfulReqs initResults.TotalRequests
        = GoFloat.nan ∧
    addEntrySuccessRate initResults.SuccessfulReqs initResults.TotalRequests
        = GoFloat.nan ∧
    printResultsSuccessRate initResults.SuccessfulReqs initResults.TotalRequests
        ≠ GoFloat.val 0 := by
  refine ⟨rfl, rfl, ?_⟩
  intro h
  exact GoFloat.noConfusion h

/-- C2 (counterexample): with the latency samples recorded in the order
3, 1, 2 (nanoseconds), `printResults` reports `Latencies[1] = 1`, but
the sorted-ascending index rule selects 2 — the reported P50 is NOT the
sorted-order element, because `printResults` never sorts. -/
theorem printResultsP50_counterexample :
    printResultsP50 [3, 1, 2] = 1 ∧ specP50Rule [3, 1, 2] = 2 ∧
      printResultsP50 [3, 1, 2] ≠ specP50Rule [3, 1, 2] := by decide

/-- C2 (amended): for n ≥ 1 samples, the P50 reported by `printResults`
is the element at index `floor(50*n/100)` (clamped to `n-1`) of the
latency-sample sequence in the order the samples were recorded — the
unsorted list — not of the sorted sequence. -/
theorem printResultsP50_amended (l : List Int) (h : l ≠ []) :
    printResultsP50 l = l.getD (min ((50 * l.length) / 100) (l.length - 1)) 0 := by
  have hlen : l.length ≠ 0 := fun hh => h (List.length_eq_zero.mp hh)
  simp only [printResultsP50]
  rw [if_pos (by omega : l.length > 0)]
  congr 1
  omega

theorem printResultsP50_amended_witness :
    printResultsP50 [3, 1, 2] =
      [3, 1, 2].getD (min ((50 * [3, 1, 2].length) / 100) ([3, 1, 2].length - 1)) 0 :=
  printResultsP50_amended [3, 1, 2] (by decide)

/-- C3: for a non-empty latency list and any percentile `p`,
`calculatePercentile` returns the element at index `(p * n) / 100`
(integer division), clamped to `n - 1`, of the ascending-sorted list
(stated against any sorted permutation `s` of the input); in particular
on [1,2,3,4,5] it returns 3 at p = 50, 5 at p = 90 and 1 at p = 10. -/
theorem calculatePercentile_sorted_index (l : List Int) (p : Nat) (s : List Int)
    (hne : l ≠ []) (hperm : s.Perm l) (hsort : s.Sorted (· ≤ ·)) :
    calculatePercentile l p
        = s.getD (min ((p * l.length) / 100) (l.length - 1)) 0 ∧
    calculatePercentile [1, 2, 3, 4, 5] 50 = 3 ∧
    calculatePercentile [1, 2, 3, 4, 5] 90 = 5 ∧
    calculatePercentile [1, 2, 3, 4, 5] 10 = 1 := by
  refine ⟨?_, by decide, by decide, by decide⟩
  have hlen : l.length ≠ 0 := fun hh => hne (List.length_eq_zero.mp hh)
  have hsorted : List.Sorted (· ≤ ·) (l.insertionSort (· ≤ ·)) :=
    List.sorted_insertionSort _ l
  have hp : (l.insertionSort (· ≤ ·)).Perm s :=
    (List.perm_insertionSort _ l).trans hperm.symm
  have heq : l.insertionSort (· ≤ ·) = s :=
    List.eq_of_perm_of_sorted hp hsorted hsort
  simp only [calculatePercentile, hlen, if_false, heq]
  congr 1
  split <;> omega

theorem calculatePercentile_sorted_index_witness :
    calculatePercentile [5, 1, 4, 2, 3] 90
      = [1, 2, 3, 4, 5].getD
          (min ((90 * [5, 1, 4, 2, 3].length) / 100) ([5, 1, 4, 2, 3].length - 1)) 0 :=
  (calculatePercentile_sorted_index [5, 1, 4, 2, 3] 90 [1, 2, 3, 4, 5]
    (by decide) (by decide) (by decide)).1

theorem applyRecord_counters (r : TestResults) (op : RecordOp) :
    (applyRecord r op).TotalRequests = r.TotalRequests + 1 ∧
    (applyRecord r op).SuccessfulReqs + (applyRecord r op).FailedReqs
      = r.SuccessfulReqs + r.FailedReqs + 1 := by
  cases op <;> simp [applyRecord, recordSuccess, recordError] <;> ring

theorem applyRecords_counters (ops : List RecordOp) (r : TestResults) :
    (applyRecords r ops).TotalRequests = r.TotalRequests + ops.length ∧
    (applyRecords r ops).SuccessfulReqs + (applyRecords r ops).FailedReqs
      = r.SuccessfulReqs + r.FailedReqs + ops.length := by
  induction ops generalizing r with
  | nil => simp [applyRecords]
  | cons op rest ih =>
    have h1 := applyRecord_counters r op
    have h2 := ih (applyRecord r op)
    simp only [applyRecords, List.foldl_cons] at h2 ⊢
    simp only [List.length_cons]
    push_cast
    omega

/-- C4: each recording operation — the success critical section of
`sendMessage` and the failure path `recordError` — increments the total
counter and exactly one of success/failure together, so after any
sequence of k recordings (in any order) `TotalRequests = k` and the
invariant `TotalRequests = SuccessfulReqs + FailedReqs` holds in every
reachable aggregate state. -/
theorem record_atomic_invariant :
    (∀ (r : TestResults) (op : RecordOp),
      (applyRecord r op).TotalRequests = r.TotalRequests + 1 ∧
      (applyRecord r op).SuccessfulReqs + (applyRecord r op).FailedReqs
        = r.SuccessfulReqs + r.FailedReqs + 1) ∧
    (∀ ops : List RecordOp,
      (applyRecords initResults ops).TotalRequests = ops.length ∧
      (applyRecords initResults ops).TotalRequests
        = (applyRecords initResults ops).SuccessfulReqs
            + (applyRecords initResults ops).FailedReqs) := by
  refine ⟨applyRecord_counters, fun ops => ?_⟩
  have h := applyRecords_counters ops initResults
  have h0a : initResults.TotalRequests = 0 := rfl
  have h0b : initResults.SuccessfulReqs = 0 := rfl
  have h0c : initResults.FailedReqs = 0 := rfl
  rw [h0a, h0b, h0c] at h
  constructor <;> omega

/-! ### Characterizing the category map after a failure sequence -/

/-- The failure messages of `msgs` that the classifier sends to
category `cat`. -/
def msgsToCat (msgs : List String) (cat : String) : List String :=
  msgs.filter (fun m => categorizeError (some m) = cat)

/-- A sequence of `recordError` calls as recording operations. -/
def failureOps (fails : List (String × String)) : List RecordOp :=
  fails.map fun f => RecordOp.failure f.1 f.2

theorem take_three_append (f : List String) (m : String) :
    (f ++ [m]).take 3 = if f.length < 3 then f.take 3 ++ [m] else f.take 3 := by
  by_cases h : f.length < 3
  · rw [if_pos h, List.take_append_eq_append_take]
    have h1 : 3 - f.length = (2 - f.length) + 1 := by omega
    rw [h1]
    simp
  · rw [if_neg h, List.take_append_eq_append_take]
    have h1 : 3 - f.length = 0 := by omega
    rw [h1]
    simp

theorem errorCategories_after (fails : List (String × String)) :
    ∀ cat, (applyRecords initResults (failureOps fails)).ErrorCategories cat =
      (initializeErrorCategories cat).map (fun info =>
        { info with
          Count := (msgsToCat (fails.map Prod.snd) cat).length
          Examples := (msgsToCat (fails.map Prod.snd) cat).take 3 }) := by
  induction fails using List.reverseRecOn with
  | nil =>
    intro cat
    show initResults.ErrorCategories cat = _
    simp only [initResults, initializeErrorCategories, msgsToCat, List.map_nil,
      List.filter_nil]
    split <;> simp
  | append_singleton fs f ih =>
    intro cat
    have happ : failureOps (fs ++ [f]) = failureOps fs ++ [RecordOp.failure f.1 f.2] := by
      simp [failureOps]
    have hfold : applyRecords initResults (failureOps (fs ++ [f]))
        = applyRecord (applyRecords initResults (failureOps fs))
            (RecordOp.failure f.1 f.2) := by
      rw [happ]
      simp [applyRecords, List.foldl_append]
    rw [hfold]
    simp only [applyRecord, recordError]
    have hmsgs : (fs ++ [f]).map Prod.snd = fs.map Prod.snd ++ [f.2] := by simp
    by_cases hcat : cat = categorizeError (some f.2)
    · rw [if_pos hcat, ih (categorizeError (some f.2))]
      have hmem := categorizeError_mem_allCategories (some f.2)
      rw [hcat, hmsgs]
      simp only [initializeErrorCategories, if_pos hmem, Option.map_some']
      have hfilter : msgsToCat (fs.map Prod.snd ++ [f.2]) (categorizeError (some f.2))
          = msgsToCat (fs.map Prod.snd) (categorizeError (some f.2)) ++ [f.2] := by
        simp [msgsToCat, List.filter_append]
      rw [hfilter, take_three_append]
      have hlen3 : ((msgsToCat (fs.map Prod.snd)
            (categorizeError (some f.2))).take 3).length < 3 ↔
          (msgsToCat (fs.map Prod.snd) (categorizeError (some f.2))).length < 3 := by
        rw [List.length_take]
        omega
      simp only [Option.some_inj, ErrorCategoryInfo.mk.injEq, List.length_append,
        List.length_singleton]
      refine ⟨trivial, trivial, ?_⟩
      by_cases h3 : (msgsToCat (fs.map Prod.snd) (categorizeError (some f.2))).length < 3
      · rw [if_pos h3, if_pos (hlen3.mpr h3)]
      · rw [if_neg h3, if_neg (fun hh => h3 (hlen3.mp hh))]
    · rw [if_neg hcat, ih cat, hmsgs]
      have hfilter : msgsToCat (fs.map Prod.snd ++ [f.2]) cat
          = msgsToCat (fs.map Prod.snd) cat := by
        simp only [msgsToCat, List.filter_append, List.filter_cons, List.filter_nil]
        have : (decide (categorizeError (some f.2) = cat)) = false := by
          simp
          exact fun hh => hcat hh.symm
        rw [this]
        simp
      rw [hfilter]

/-- C6: after any sequence of `recordError` calls, every category's
`Examples` list has at most 3 entries, and it holds exactly the messages
of the first at-most-three failures the classifier sent to that
category. -/
theorem recordError_examples_cap (fails : List (String × String)) (cat : String)
    (info : ErrorCategoryInfo)
    (h : (applyRecords initResults (failureOps fails)).ErrorCategories cat = some info) :
    info.Examples.length ≤ 3 ∧
    info.Examples = (msgsToCat (fails.map Prod.snd) cat).take 3 := by
  rw [errorCategories_after fails cat] at h
  cases hinit : initializeErrorCategories cat with
  | none => rw [hinit] at h; simp at h
  | some info0 =>
    rw [hinit] at h
    simp only [Option.map_some', Option.some_inj] at h
    refine ⟨?_, by rw [← h]⟩
    rw [← h]
    simp only [List.length_take]
    omega

theorem recordError_examples_cap_witness :
    (⟨4, "Requests that timed out (handshake, read, write timeouts)",
        ["timeout a", "timeout b", "timeout c"]⟩ : ErrorCategoryInfo).Examples.length ≤ 3 ∧
    (⟨4, "Requests that timed out (handshake, read, write timeouts)",
        ["timeout a", "timeout b", "timeout c"]⟩ : ErrorCategoryInfo).Examples =
      (msgsToCat ([("e0", "timeout a"), ("e1", "timeout b"), ("e2", "timeout c"),
          ("e3", "timeout d")].map Prod.snd) "timeout").take 3 :=
  recordError_examples_cap
    [("e0", "timeout a"), ("e1", "timeout b"), ("e2", "timeout c"), ("e3", "timeout d")]
    "timeout"
    ⟨4, "Requests that timed out (handshake, read, write timeouts)",
      ["timeout a", "timeout b", "timeout c"]⟩
    (by decide)

/-- C7: `Run` returns an error iff the duration string fails to parse;
on that error it returns at once with the aggregate untouched (no start
time recorded, no worker outcome applied), and for every parseable
duration it returns nil regardless of what the workers recorded —
per-connection and per-send failures never produce a non-nil return. -/
theorem run_error_iff_parse_failure
    (parseDur : String → Option Int) (opts : TestOptions)
    (startTime endTime : Int) (events : List RecordOp) (r : TestResults) :
    ((runLoadTest parseDur opts startTime endTime events r).1 ≠ none ↔
      parseDur opts.Duration = none) ∧
    (parseDur opts.Duration = none →
      runLoadTest parseDur opts startTime endTime events r
        = (some "invalid duration format", r)) := by
  cases h : parseDur opts.Duration <;> simp [runLoadTest, h]

theorem run_error_iff_parse_failure_witness :
    runLoadTest (fun _ => none) ⟨"ws://host", "bogus", 1, "hi", 1⟩ 0 0 [] initResults
      = (some "invalid duration format", initResults) :=
  (run_error_iff_parse_failure (fun _ => none) ⟨"ws://host", "bogus", 1, "hi", 1⟩
    0 0 [] initResults).2 rfl

/-- C8 (counterexample): a worker whose connection open succeeded, with
loop count 1 and the cancellation signal already set at the first
iteration boundary, exits with an empty action trace: no graceful close
(`WriteClose(1000)`) is attempted on the cancellation exit path. -/
theorem runConnection_close_counterexample :
    runConnection none 1 (fun _ => true) = [] ∧
    ConnAction.close1000 ∉ runConnection none 1 (fun _ => true) := by
  constructor
  · rfl
  · intro h
    simp [runConnection, connLoop] at h

theorem connLoop_close_mem (cancelled : Nat → Bool) (i rem : Nat) :
    ConnAction.close1000 ∈ connLoop cancelled i rem ↔
      ∀ j, j < rem → cancelled (i + j) = false := by
  induction rem generalizing i with
  | zero => simp [connLoop]
  | succ rem ih =>
    simp only [connLoop]
    by_cases h : cancelled i = true
    · rw [if_pos h]
      simp only [List.not_mem_nil, false_iff]
      intro hall
      have h0 := hall 0 (by omega)
      rw [Nat.add_zero] at h0
      rw [h0] at h
      exact Bool.noConfusion h
    · rw [if_neg h]
      have hf : cancelled i = false := by
        revert h
        cases cancelled i <;> simp
      simp only [List.mem_cons]
      have hne : ConnAction.close1000 ≠ ConnAction.send i := by
        intro hh
        exact ConnAction.noConfusion hh
      rw [ih (i + 1)]
      constructor
      · rintro (hh | hall)
        · exact absurd hh hne
        · intro j hj
          cases j with
          | zero => simpa using hf
          | succ k =>
            have hk := hall k (by omega)
            have he : i + 1 + k = i + (k + 1) := by omega
            rwa [he] at hk
      · intro hall
        right
        intro j hj
        have hk := hall (j + 1) (by omega)
        have he : i + (j + 1) = i + 1 + j := by omega
        rwa [he] at hk

/-- C8 (amended): for a worker whose connection open succeeds, a graceful
close (`WriteClose` with code 1000) is attempted iff the worker runs all
configured iterations without ever observing the cancellation signal at
an iteration boundary; on the early-stop (cancellation-observed) exit
path `runConnection` returns without attempting the close. -/
theorem runConnection_close_iff (loopCount : Nat) (cancelled : Nat → Bool) :
    ConnAction.close1000 ∈ runConnection none loopCount cancelled ↔
      ∀ i, i < loopCount → cancelled i = false := by
  have h := connLoop_close_mem cancelled 0 loopCount
  simpa [runConnection] using h

theorem runConnection_close_iff_witness :
    ConnAction.close1000 ∈ runConnection none 2 (fun _ => false) :=
  (runConnection_close_iff 2 (fun _ => false)).mpr (fun _ _ => rfl)

theorem connLoop_send_mem (c i rem k : Nat) :
    ConnAction.send k ∈ connLoop (fun j => decide (c ≤ j)) i rem ↔
      (i ≤ k ∧ k < i + rem ∧ k < c) := by
  induction rem generalizing i with
  | zero =>
    simp only [connLoop, List.mem_singleton]
    constructor
    · intro hh
      exact ConnAction.noConfusion hh
    · omega
  | succ rem ih =>
    simp only [connLoop]
    by_cases h : c ≤ i
    · rw [if_pos (by simpa using h)]
      simp only [List.not_mem_nil, false_iff]
      omega
    · rw [if_neg (by simpa using h)]
      simp only [List.mem_cons, ConnAction.send.injEq, ih (i + 1)]
      omega

/-- C9: with the (monotone) cancellation signal observed from iteration
boundary `c` onward, a worker performs the send of iteration `k` iff
`k` is below both the configured repeat count and `c`: once the signal
is set, no iteration at or past the observation boundary begins a new
send, and the check happens before sending at every boundary. -/
theorem cancellation_monotonic (loopCount c k : Nat) :
    ConnAction.send k ∈ runConnection none loopCount (fun j => decide (c ≤ j)) ↔
      (k < loopCount ∧ k < c) := by
  have h := connLoop_send_mem c 0 loopCount k
  simp only [runConnection] at *
  constructor
  · intro hh
    have := h.mp hh
    omega
  · intro hh
    exact h.mpr (by omega)

theorem cancellation_monotonic_witness :
    ConnAction.send 1 ∈ runConnection none 3 (fun j => decide (2 ≤ j)) ∧
    ConnAction.send 2 ∉ runConnection none 3 (fun j => decide (2 ≤ j)) :=
  ⟨(cancellation_monotonic 3 2 1).mpr (by omega),
   fun h => by
     have := (cancellation_monotonic 3 2 2).mp h
     omega⟩

end WsLoad
